import Mathlib

/-!
# Verification of the `auto` release-orchestration engine

Shallow embedding, in Lean 4, of the release-orchestration core found in
`src/unnamed/part_000` (the `Auto` class: `loadConfig`, `canary`, `shipit`,
`publishLatest`, `makeChangelog`, `makeRelease`) and in
`src/plugins/released/src/index.ts` (the `ReleasedLabelPlugin`:
`addReleased`, `addCommentAndLabel`, the `closeIssue` regular expression).

External collaborators (the git/hosting client, the semver library, the
commit-log provider, `calculateSemVerBump` from the missing `./semver`
module) are modelled as oracle fields of explicit environment records, and
every observable action is recorded in an ordered `Effect` trace, matching
the single-control-flow execution model of the source.
-/

namespace Auto2

/-! ## Definitions -/

/-- Replace every non-overlapping occurrence of `pat` (non-empty) in `s` by
`rep`, scanning left to right and resuming after each replacement — the
behaviour of JavaScript `String.prototype.replace` with a global regex whose
pattern is a literal.  `fuel` bounds the recursion and is instantiated with
the text length, which the scan can never exceed. -/
def replaceAllAux (pat rep : List Char) : Nat → List Char → List Char
  | 0, s => s
  | _ + 1, [] => []
  | fuel + 1, c :: rest =>
    if pat.isPrefixOf (c :: rest) then
      rep ++ replaceAllAux pat rep fuel ((c :: rest).drop pat.length)
    else c :: replaceAllAux pat rep fuel rest

/-- String-level wrapper for `replaceAllAux`. -/
def replaceAll (s pat rep : String) : String :=
  String.mk (replaceAllAux pat.toList rep.toList (s.toList.length + 1) s.toList)

/-- Split a character list at every occurrence of the character `c`, the
behaviour of JavaScript `String.prototype.split` with a one-character
separator (an empty input yields one empty field). -/
def splitOnChar (c : Char) : List Char → List (List Char)
  | [] => [[]]
  | x :: rest =>
    let r := splitOnChar c rest
    if x = c then [] :: r
    else
      match r with
      | h :: t => (x :: h) :: t
      | [] => [[x]]

/-- The lines of a string, split at newline characters. -/
def splitLines (s : String) : List String :=
  (splitOnChar '\n' s.toList).map String.mk

/-- JavaScript string truthiness for an optional string: `undefined` and the
empty string are falsy, every other string is truthy. -/
def jsTruthy (o : Option String) : Bool := o.getD "" != ""

/-- JavaScript `a || b` on strings: `b` when `a` is falsy (empty), else `a`. -/
def jsOr (a b : String) : String := if a = "" then b else a

/-- The string under an optional string, `undefined` read as the empty string. -/
def optStr (o : Option String) : String := o.getD ""

/-- Does `s` start with `pat`?  (`String.prototype.startsWith`.) -/
def strStartsWith (s pat : String) : Bool := pat.toList.isPrefixOf s.toList

/-- Whitespace characters matched by the JavaScript `\s` character class
(restricted to the ASCII range, which covers the inputs of this development). -/
def isWsChar (c : Char) : Bool :=
  c = ' ' || c = '\t' || c = '\n' || c = '\r' || c = Char.ofNat 11 || c = Char.ofNat 12

/-- Split a character list into its leading run of decimal digits and the rest. -/
def spanDigits (l : List Char) : List Char × List Char := l.span (fun c => c.isDigit)

/-- Numeric value of a list of decimal digits, as JavaScript `Number` reads it. -/
def digitsToNat (ds : List Char) : Nat :=
  ds.foldl (fun acc c => acc * 10 + (c.toNat - '0'.toNat)) 0

/-- JavaScript `Number(...)` on a string of decimal digits. -/
def jsNumber (s : String) : Nat := digitsToNat s.toList

/-- Case-insensitive prefix match: if `pat` is a prefix of `t` up to ASCII
case, return the rest of `t`, else `none`.  Mirrors matching one literal
alternative of a JavaScript regex compiled with the `i` flag. -/
def matchPrefixCI : List Char → List Char → Option (List Char)
  | [], t => some t
  | _ :: _, [] => none
  | p :: ps, t :: ts => if p.toLower = t.toLower then matchPrefixCI ps ts else none

/-- Consume the `((?:#\d+(?:,\s)?)+)` group of the `closeIssue` regex starting
at a position known to begin with `#`: greedily eat `#` plus digits, then an
optional `,` + whitespace, looping while another `#digit` follows.  Returns
the rest of the text after the full greedy match (the exact suffix a
backtracking JavaScript engine leaves), or `none` if not even one `#\d+`
is present.  `fuel` bounds the recursion and is instantiated with the text
length, which the loop can never exceed. -/
def refsRun : Nat → List Char → Option (List Char)
  | 0, _ => none
  | fuel + 1, t =>
    match t with
    | '#' :: rest =>
      let (ds, rest2) := spanDigits rest
      if ds.isEmpty then none
      else
        match rest2 with
        | ',' :: c :: rest3 =>
          if isWsChar c then
            match rest3 with
            | '#' :: d :: _ =>
              if d.isDigit then
                match refsRun fuel rest3 with
                | some r => some r
                | none => some rest3
              else some rest3
            | _ => some rest3
          else some rest2
        | _ => some rest2
    | _ => none

/-- The ordered alternatives of the `closeIssue` regex, exactly as listed in
`src/plugins/released/src/index.ts` line 22. -/
def closeKeywords : List (List Char) :=
  ["Close".toList, "Closes".toList, "Closed".toList,
   "Fix".toList, "Fixes".toList, "Fixed".toList,
   "Resolve".toList, "Resolves".toList, "Resolved".toList]

/-- Try one alternative of `closeIssue` at the current position: the keyword
(case-insensitively), one `\s` character, then the issue-reference group.
Returns the rest of the text after the whole match. -/
def tryKeyword (kw : List Char) (t : List Char) : Option (List Char) :=
  match matchPrefixCI kw t with
  | none => none
  | some rest =>
    match rest with
    | c :: rest2 => if isWsChar c then refsRun rest2.length.succ rest2 else none
    | [] => none

/-- Try the alternatives of `closeIssue` in their listed order, as a
backtracking JavaScript engine does, keeping the first one whose whole
continuation succeeds. -/
def tryAlternatives : List (List Char) → List Char → Option (List Char)
  | [], _ => none
  | kw :: kws, t =>
    match tryKeyword kw t with
    | some r => some r
    | none => tryAlternatives kws t

/-- Scan the text left to right, as `String.prototype.match` does with a
`g`-flag regex: at each position try a match; on success record the full
matched substring and resume after it, else advance one character. -/
def scanMatches : Nat → List Char → List String
  | 0, _ => []
  | _, [] => []
  | fuel + 1, t =>
    match tryAlternatives closeKeywords t with
    | some r =>
      let consumed := t.take (t.length - r.length)
      String.mk consumed :: scanMatches fuel r
    | none =>
      match t with
      | [] => []
      | _ :: rest => scanMatches fuel rest

/-- Embedding of `message.match(closeIssue)` from
`src/plugins/released/src/index.ts` (line 110): the list of full matches of
the global case-insensitive `closeIssue` regex (`null` becomes `[]`). -/
def closeIssueMatches (msg : String) : List String :=
  scanMatches (msg.toList.length + 1) msg.toList

/-- Embedding of `issue.match(/#(\d+)/i)` followed by `Number(match[1])`
(lines 113–115): the number of the first `#digits` reference in the string,
if any. -/
def firstIssueRef (l : List Char) : Option Nat :=
  match l with
  | [] => none
  | '#' :: rest =>
    let (ds, _) := spanDigits rest
    if ds.isEmpty then firstIssueRef rest else some (digitsToNat ds)
  | _ :: rest => firstIssueRef rest

/-- Embedding of the issue-collection pipeline of `addReleased`
(`src/plugins/released/src/index.ts` lines 109–115): match every message
against `closeIssue`, drop non-matches, flatten, and take the first
`#number` of each keyword match. -/
def collectIssues (messages : List String) : List Nat :=
  ((messages.map closeIssueMatches).flatten).filterMap
    (fun m => firstIssueRef m.toList)

/-- Observable actions of a run, recorded in program order.  Log lines,
hook-point firings, platform reads and platform mutations are all events of
the single control flow described in §5 of the specification. -/
inductive Effect where
  | logError (msg : String)
  | logWarn (msg : String)
  | logInfo (msg : String)
  | logSuccess (msg : String)
  | processExit (code : Nat)
  | getCommitsInRelease (ref : String)
  | getCommits (ref : String)
  | getSha
  | getLatestTagInBranch
  | getFirstCommit
  | getLatestRelease
  | getCurrentVersionEff
  | getPullRequest (n : Nat)
  | getCommitsForPr (n : Nat)
  | generateReleaseNotes
  | setGitUser
  | canaryHook (bump : String) (canaryId : String)
  | prBodyUpdate (pr : Nat) (ctx : String) (message : String)
  | versionHook (bump : String)
  | afterVersionHook
  | publishHook (bump : String)
  | afterPublishHook
  | beforeShipItHook
  | afterShipItHook
  | beforeCommitChangelogHook
  | afterAddToChangelogHook
  | changelogPersist
  | changelogCommit
  | gitPublish (version : String)
  | afterReleaseHook (newVersion : Option String)
  | comment (target : Nat) (ctx : String) (message : String)
  | getLabels (target : Nat)
  | addLabel (target : Nat) (label : String)
  | lockIssue (target : Nat)
deriving DecidableEq

/-- An effect that computes a commit range from the commit-log provider. -/
def Effect.isCommitRangeComputation : Effect → Bool
  | .getCommitsInRelease _ => true
  | .getCommits _ => true
  | _ => false

/-- An effect that mutates state on the hosting platform or publishes a
package (as opposed to local logging and read-only queries). -/
def Effect.isPlatformSideEffect : Effect → Bool
  | .canaryHook _ _ => true
  | .prBodyUpdate _ _ _ => true
  | .versionHook _ => true
  | .publishHook _ => true
  | .changelogPersist => true
  | .changelogCommit => true
  | .gitPublish _ => true
  | .comment _ _ _ => true
  | .addLabel _ _ => true
  | .lockIssue _ => true
  | _ => false

/-- Recognize the `addLabel` effect. -/
def Effect.isAddLabel : Effect → Bool
  | .addLabel _ _ => true
  | _ => false

/-- Recognize the `lockIssue` effect. -/
def Effect.isLockIssue : Effect → Bool
  | .lockIssue _ => true
  | _ => false

/-- Recognize the `afterRelease` hook firing. -/
def Effect.isAfterRelease : Effect → Bool
  | .afterReleaseHook _ => true
  | _ => false

/-- Recognize the creation of the hosting-platform release object. -/
def Effect.isGitPublish : Effect → Bool
  | .gitPublish _ => true
  | _ => false

/-- Recognize a PR-body update. -/
def Effect.isPrBodyUpdate : Effect → Bool
  | .prBodyUpdate _ _ _ => true
  | _ => false

/-- Recognize a success report to the user. -/
def Effect.isSuccessReport : Effect → Bool
  | .logSuccess _ => true
  | _ => false

/-- The mutating side effects that claim C7 says dry-run mode suppresses:
the version / afterVersion / publish / afterPublish hook points, persisting
or committing the changelog, creating the hosting-platform release object,
and calling the canary hook. -/
def Effect.isDryRunSuppressed : Effect → Bool
  | .versionHook _ => true
  | .afterVersionHook => true
  | .publishHook _ => true
  | .afterPublishHook => true
  | .changelogPersist => true
  | .changelogCommit => true
  | .gitPublish _ => true
  | .canaryHook _ _ => true
  | _ => false

/-- Options of the `ReleasedLabelPlugin` (`IReleasedLabelPluginOptions`). -/
structure ReleasedOptions where
  message : String
  label : String
  lockIssues : Bool
deriving DecidableEq

/-- The plugin's `defaultOptions` (lines 16–20). -/
def defaultOptions : ReleasedOptions :=
  { message := ":rocket: %TYPE was released in %VERSION :rocket:"
    label := "released"
    lockIssues := false }

/-- Embedding of `isCanary` (line 25): `version.match('canary')` is a
substring test for `"canary"`. -/
def isCanary (version : String) : Bool :=
  hasSubstr "canary".toList version.toList
where
  /-- Does `pat` occur as a contiguous run inside `t`? -/
  hasSubstr (pat : List Char) : List Char → Bool
    | [] => pat.isEmpty
    | c :: rest => pat.isPrefixOf (c :: rest) || hasSubstr pat rest

/-- Embedding of `createReleasedComment` (lines 153–157): global replacement
of the `%TYPE` and `%VERSION` markers in the configured message. -/
def createReleasedComment (o : ReleasedOptions) (isIssue : Bool) (version : String) :
    String :=
  replaceAll (replaceAll o.message "%TYPE" (if isIssue then "Issue" else "PR"))
    "%VERSION" version

/-- The hosting platform's mutable label state: the list of labels currently
attached to each PR or issue number. -/
structure Platform where
  labels : Nat → List String

/-- Embedding of `git.addLabelToPr` on the platform state: append the label
to the target's label list. -/
def addLabelToPr (p : Platform) (n : Nat) (label : String) : Platform :=
  ⟨fun m => if m = n then p.labels m ++ [label] else p.labels m⟩

/-- Embedding of the label step of `addCommentAndLabel` (lines 144–149), the
`ensureLabel` operation of the specification: read the target's current
labels and add the configured label only when absent. -/
def ensureLabel (o : ReleasedOptions) (p : Platform) (n : Nat) :
    Platform × List Effect :=
  let labels := p.labels n
  if labels.contains o.label then (p, [Effect.getLabels n])
  else (addLabelToPr p n o.label, [Effect.getLabels n, Effect.addLabel n o.label])

/-- Embedding of `addCommentAndLabel` (lines 129–150): post the templated
comment under the `released` context, then — unless the version is a canary
version — ensure the `released` label. -/
def addCommentAndLabel (o : ReleasedOptions) (p : Platform) (newVersion : String)
    (prOrIssue : Nat) (isIssue : Bool) : Platform × List Effect :=
  let message := createReleasedComment o isIssue newVersion
  let commentEff := [Effect.comment prOrIssue "released" message]
  if isCanary newVersion then (p, commentEff)
  else
    let (p', labelEff) := ensureLabel o p prOrIssue
    (p', commentEff ++ labelEff)

/-- Collaborators `addReleased` consults for a pull request: the request's
body and the messages of the commits inside it. -/
structure ReleasedEnv where
  prBody : Nat → String
  prCommitMessages : Nat → List String

/-- A commit as the plugin sees it (`IExtendedCommit`): its subject, labels
and, when known, the number of its originating pull request. -/
structure Commit where
  subject : String
  labels : List String
  pullRequest : Option Nat
deriving DecidableEq

/-- The message list `addReleased` scans (lines 91–106): the commit subject,
then — when the originating request is known — every line of the request
body and every commit message in the request. -/
def addReleasedMessages (env : ReleasedEnv) (c : Commit) : List String :=
  match c.pullRequest with
  | some n => c.subject :: (splitLines (env.prBody n) ++ env.prCommitMessages n)
  | none => [c.subject]

/-- The issue numbers `addReleased` extracts from those messages. -/
def addReleasedIssues (env : ReleasedEnv) (c : Commit) : List Nat :=
  collectIssues (addReleasedMessages env c)

/-- One iteration of the `issues.map(...)` loop of `addReleased`
(lines 117–125): comment-and-label the issue, then lock it when `lockIssues`
is configured and the version is not a canary.  The `Promise.all` loop is
sequenced in list order, per the single-flow model of §5. -/
def addReleasedStep (o : ReleasedOptions) (v : String)
    (acc : Platform × List Effect) (i : Nat) : Platform × List Effect :=
  let (p, tr) := acc
  let (p1, tr1) := addCommentAndLabel o p v i true
  let lockTr := if o.lockIssues && !isCanary v then [Effect.lockIssue i] else []
  (p1, tr ++ tr1 ++ lockTr)

/-- Embedding of `addReleased` (lines 86–126): comment-and-label the
originating request (when known), gather the request body and its commit
messages, collect the referenced issue numbers, and apply the issue
treatment to each. -/
def addReleased (o : ReleasedOptions) (env : ReleasedEnv) (p : Platform)
    (c : Commit) (v : String) : Platform × List Effect :=
  match c.pullRequest with
  | some n =>
    let (p1, tr1) := addCommentAndLabel o p v n false
    let tr0 := tr1 ++ [Effect.getPullRequest n, Effect.getCommitsForPr n]
    (addReleasedIssues env c).foldl (addReleasedStep o v) (p1, tr0)
  | none =>
    (addReleasedIssues env c).foldl (addReleasedStep o v) (p, [])

/-- The per-target effects of the originating-request step, when known. -/
def prStepEffects (o : ReleasedOptions) (v : String) : Option Nat → List Effect
  | some n =>
    [Effect.comment n "released" (createReleasedComment o false v),
     Effect.getPullRequest n, Effect.getCommitsForPr n]
  | none => []

/-- The platform state an `ensureLabel` call leaves behind. -/
def ensureLabelState (o : ReleasedOptions) (n : Nat) (p : Platform) : Platform :=
  (ensureLabel o p n).1

/-- The pull-request body that exhibits the issue-collection defect of
claim C1. -/
def c1Env : ReleasedEnv := ⟨fun _ => "Fixes #10, #11", fun _ => []⟩

/-- A released commit originating from pull request 5. -/
def c1Commit : Commit := ⟨"subject", [], some 5⟩

/-- Result of awaiting the `canary` SeriesBail hook: either the published
identifier string or the structured failure object carrying an error
message. -/
inductive CanaryHookResult where
  | published (id : String)
  | failed (error : String)
deriving DecidableEq

/-- Environment of one `canary` invocation.  CI environment sensing, CLI
options, and the external collaborators (commit-log provider, git client,
the `calculateSemVerBump` function of the missing `./semver` module, and the
registered `canary` hook handler) are oracle fields. -/
structure CanaryEnv where
  /-- `this.git` and `this.release` are initialized (`loadConfig` has run). -/
  initialized : Bool
  /-- `this.hooks.canary.isUsed()`. -/
  canaryHookUsed : Bool
  /-- `env.pr` when `'pr' in env`, else `none`. -/
  envPr : Option String
  /-- `env.build` when `'build' in env`, else `none`. -/
  envBuild : Option String
  /-- `env.commit` when `'commit' in env`, else `none`. -/
  envCommit : Option String
  /-- `options.pr`, already passed through `String(...)`. -/
  optPr : Option String
  /-- `options.build`, already passed through `String(...)`. -/
  optBuild : Option String
  /-- `options.dryRun`. -/
  dryRun : Bool
  /-- `options.message`. -/
  optMessage : Option String
  /-- Labels of the commits `this.release.getCommitsInRelease('HEAD^')`
  returns, one label list per commit. -/
  commitLabels : List (List String)
  /-- `calculateSemVerBump` from the `./semver` module (its source is not in
  the repository snapshot): maps the commit label sets to a bump-kind string,
  the empty string being the "no release warranted" sentinel, as the
  `version === ''` check of `publishLatest` (line 768) shows. -/
  calcBump : List (List String) → String
  /-- `this.git.getSha(true)`, the short head sha. -/
  shortSha : String
  /-- Result of `this.hooks.canary.promise(version, canaryVersion)`. -/
  hookResult : CanaryHookResult
  /-- `this.git.getLatestTagInBranch()`, `none` when it throws. -/
  latestTagRes : Option String
  /-- `this.git.getFirstCommit()`. -/
  firstCommit : String
  /-- Commits `this.release.getCommits(latestTag)` returns. -/
  commitsFromTag : List String

/-- The `pr` value after the env/option resolution of lines 610–621. -/
def canaryPr (e : CanaryEnv) : Option String :=
  let pr :=
    if e.envPr.isSome && e.envBuild.isSome then e.envPr
    else if e.envPr.isSome && e.envCommit.isSome then e.envPr
    else none
  if jsTruthy e.optPr then e.optPr else pr

/-- The `build` value after the env/option resolution of lines 610–622. -/
def canaryBuild (e : CanaryEnv) : Option String :=
  let build :=
    if e.envPr.isSome && e.envBuild.isSome then e.envBuild
    else if e.envPr.isSome && e.envCommit.isSome then e.envCommit
    else none
  if jsTruthy e.optBuild then e.optBuild else build

/-- Embedding of the canary identifier construction (lines 631–643): append
`.{pr}` when the request number is truthy, `.{build}` when the build id is
truthy, and `.{shortSha}` when at least one of the two is missing. -/
def canaryVersion (pr build : Option String) (sha : String) : String :=
  let cv := ""
  let cv := if jsTruthy pr then cv ++ "." ++ optStr pr else cv
  let cv := if jsTruthy build then cv ++ "." ++ optStr build else cv
  if !jsTruthy pr || !jsTruthy build then cv ++ "." ++ sha else cv

/-- The bump kind the canary command uses (lines 627–630):
`calculateSemVerBump(labels, ...) || SEMVER.patch`, the empty sentinel
falling back to a patch bump. -/
def canaryBump (e : CanaryEnv) : String :=
  jsOr (e.calcBump e.commitLabels) "patch"

/-- The fatal message of the unused-hook refusal (lines 599–605, dedented). -/
def canaryUnusedMessage : String :=
  "None of the plugins that you are using implement the canary command!"

/-- Outcome of a `canary` invocation: an initialization error thrown, the
fatal unused-hook exit, an abort after a structured hook failure, or normal
completion with the new version and commit list. -/
inductive CanaryOutcome where
  | notInitialized
  | fatalExit
  | aborted
  | done (newVersion : String) (commitsInRelease : List String)
deriving DecidableEq

/-- The `%v` substitution of the success message (lines 663–673): the
version is backtick-quoted unless empty or multi-line, and `replace` with a
string pattern substitutes only the first occurrence. -/
def canarySuccessBody (message newVersion : String) : String :=
  replaceFirstV message
    (if newVersion = "" || (newVersion.toList).contains '\n' then newVersion
     else "`" ++ newVersion ++ "`")
where
  /-- Replace the first occurrence of `%v` in `message`. -/
  replaceFirstV (message rep : String) : String :=
    String.mk (go message.toList rep.toList)
  /-- Character-level scan replacing the first `%v`. -/
  go : List Char → List Char → List Char
    | [], _ => []
    | '%' :: 'v' :: rest, rep => rep ++ rest
    | c :: rest, rep => c :: go rest rep

/-- The tail of the command shared by the dry-run and published paths
(lines 681–690): resolve the latest tag (falling back to the first commit
when the lookup throws) and fetch the commits since it. -/
def canaryTagEffects (e : CanaryEnv) : List Effect :=
  [Effect.getLatestTagInBranch] ++
    (match e.latestTagRes with
     | some _ => []
     | none => [Effect.getFirstCommit]) ++
    [Effect.getCommits (e.latestTagRes.getD e.firstCommit)]

/-- Embedding of the `canary` command (lines 593–691).  The control flow is
translated branch for branch; every hook firing, platform call and log line
is recorded in order. -/
def canary (e : CanaryEnv) : CanaryOutcome × List Effect :=
  if !e.initialized then (.notInitialized, [])
  else if !e.canaryHookUsed then
    (.fatalExit, [Effect.logError canaryUnusedMessage, Effect.processExit 1])
  else
    let pr := canaryPr e
    let build := canaryBuild e
    let version := canaryBump e
    let cv := canaryVersion pr build e.shortSha
    let shaEff : List Effect :=
      if !jsTruthy pr || !jsTruthy build then [Effect.getSha] else []
    let t0 := [Effect.getCommitsInRelease "HEAD^"] ++ shaEff
    if e.dryRun then
      (.done "" e.commitsFromTag,
        t0 ++ [Effect.logWarn
            ("Published canary identifier would be: \"-canary" ++ cv ++ "\"")] ++
          canaryTagEffects e)
    else
      let t1 := t0 ++ [Effect.logInfo "Calling canary hook",
        Effect.canaryHook version cv]
      match e.hookResult with
      | .failed err => (.aborted, t1 ++ [Effect.logWarn err])
      | .published newVersion =>
        let message := jsOr (optStr e.optMessage)
          "Published PR with canary version: %v"
        let prBodyEff : List Effect :=
          if message != "false" && jsTruthy pr then
            [Effect.prBodyUpdate (jsNumber (optStr pr)) "canary-version"
              (canarySuccessBody message newVersion)]
          else []
        let t2 := t1 ++ prBodyEff ++
          [Effect.logSuccess
            ("Published canary version" ++
              (if newVersion != "" then ": " ++ newVersion else ""))]
        (.done newVersion e.commitsFromTag, t2 ++ canaryTagEffects e)

/-- A concrete non-dry-run canary environment whose hook reports a
structured failure. -/
def c6Env : CanaryEnv :=
  ⟨true, true, some "42", some "7", none, none, none, false, none, [],
    fun _ => "minor", "abcd123", .failed "npm publish failed", some "v1.0.0",
    "c0", []⟩

/-- A concrete canary environment whose commit range warrants no release. -/
def c10Env : CanaryEnv :=
  ⟨true, true, some "42", some "7", none, none, none, false, none, [["skip"]],
    fun _ => "", "abcd123", .published "1.0.1-canary.42.7", some "v1.0.0",
    "c0", []⟩

/-- Does the string match the regex `/^\d+\.\d+\.\d+/` of line 933: one or
more digits, a dot, digits, a dot, digits, as a prefix? -/
def startsWithSemverTriple (s : String) : Bool :=
  match digits1 s.toList with
  | some ( '.' :: r1) =>
    match digits1 r1 with
    | some ( '.' :: r2) => (digits1 r2).isSome
    | _ => false
  | _ => false
where
  /-- Consume one or more leading digits, returning the rest. -/
  digits1 (l : List Char) : Option (List Char) :=
    let (ds, r) := spanDigits l
    if ds.isEmpty then none else some r

/-- Environment of one release run: the CLI options and the results the
external collaborators (git client, semver library, previous-version hook,
changelog generator) produce. -/
structure ShipEnv where
  /-- `options.dryRun`. -/
  dryRun : Bool
  /-- `options.from`. -/
  fromOpt : Option String
  /-- `options.useVersion`. -/
  useVersion : Option String
  /-- `this.release.getSemverBump(lastRelease)` — the computed bump kind,
  with the empty string as the "no release warranted" sentinel. -/
  semverBump : String
  /-- `this.git.getLatestRelease()`. -/
  latestRelease : String
  /-- `this.getCurrentVersion(lastRelease)` — the next version computed from
  the `getPreviousVersion` hook. -/
  currentVersion : String
  /-- `this.git.getLatestTagInBranch()` (`none` when it throws). -/
  latestTagInBranch : Option String
  /-- Commits `this.release.getCommitsInRelease(lastRelease)` returns. -/
  commitsInRelease : List String
  /-- Truthiness of `semver.parse(x)`. -/
  parses : String → Bool
  /-- `semver.eq(a, b)`. -/
  semverEq : String → String → Bool
  /-- `semver.inc(v, bump)`. -/
  semverInc : String → String → String
  /-- `this.release.options.noVersionPrefix`. -/
  noVersionPrefix : Bool

/-- Embedding of `prefixRelease` (lines 999–1007): prepend `v` unless
disabled by configuration or already present. -/
def prefixRelease (e : ShipEnv) (r : String) : String :=
  if e.noVersionPrefix || strStartsWith r "v" then r else "v" ++ r

/-- The `lastRelease` value of `makeRelease` (lines 928–935): the `from`
option or the latest published release, `v`-prefixed when it is a bare
`x.y.z` version. -/
def mrLastRelease (e : ShipEnv) : String :=
  let lastRelease := jsOr (optStr e.fromOpt) e.latestRelease
  if startsWithSemverTriple lastRelease then prefixRelease e lastRelease
  else lastRelease

/-- The `rawVersion` value of `makeRelease` (lines 950–953):
`useVersion || getCurrentVersion(lastRelease) || getLatestTagInBranch()`. -/
def mrRawVersion (e : ShipEnv) : String :=
  jsOr (optStr e.useVersion)
    (jsOr e.currentVersion (optStr e.latestTagInBranch))

/-- The `newVersion` value of `makeRelease` (lines 960–962): the raw version
`v`-prefixed when it parses as a semver version. -/
def mrNewVersion (e : ShipEnv) : String :=
  if e.parses (mrRawVersion e) then prefixRelease e (mrRawVersion e)
  else mrRawVersion e

/-- The short-circuit read effects behind `rawVersion`'s `||` chain. -/
def mrRawVersionEffects (e : ShipEnv) : List Effect :=
  if jsTruthy e.useVersion then []
  else [Effect.getCurrentVersionEff] ++
    (if e.currentVersion = "" then [Effect.getLatestTagInBranch] else [])

/-- The warning of lines 970–972. -/
def nothingReleasedMsg (v : String) : String :=
  "Nothing released to Github. Version to be released is the same as the " ++
    "latest release on Github: " ++ v

/-- Embedding of `makeRelease` (lines 919–996): compute the commit list and
release notes, resolve the new version, return early when it equals the
latest published release (non-dry-run), otherwise create the platform
release (or log it in dry-run) and fire the `afterRelease` hook. -/
def makeRelease (e : ShipEnv) : Option String × List Effect :=
  let lastRelease := mrLastRelease e
  let t0 := (if jsTruthy e.fromOpt then [] else [Effect.getLatestRelease]) ++
    [Effect.logInfo ("Last used release: " ++ lastRelease),
     Effect.getCommitsInRelease lastRelease, Effect.generateReleaseNotes]
  let rawVersion := mrRawVersion e
  let t1 := t0 ++ mrRawVersionEffects e
  if rawVersion = "" then
    (none, t1 ++ [Effect.logError "Could not calculate next version from last tag."])
  else
    let newVersion := mrNewVersion e
    if !e.dryRun && e.parses newVersion && e.parses lastRelease &&
        e.semverEq newVersion lastRelease then
      (none, t1 ++ [Effect.logWarn (nothingReleasedMsg newVersion)])
    else
      let t2 := t1 ++
        (if e.dryRun then
          [Effect.logInfo
            ("Would have released (unless ran with \"shipit\"): " ++ newVersion)]
         else
          [Effect.logInfo ("Releasing " ++ newVersion ++ " to GitHub."),
           Effect.gitPublish newVersion])
      (some newVersion, t2 ++ [Effect.afterReleaseHook (some newVersion)])

/-- Embedding of `makeChangelog` (lines 865–916): set the git user, compute
the bump and release notes, and — unless dry-run — persist the changelog,
fire the changelog hooks and commit. -/
def makeChangelog (e : ShipEnv) : List Effect :=
  let lastRelease := jsOr (optStr e.fromOpt) e.latestRelease
  let t0 := [Effect.setGitUser] ++
    (if jsTruthy e.fromOpt then [] else [Effect.getLatestRelease]) ++
    [Effect.generateReleaseNotes, Effect.logInfo "New Release Notes"]
  if e.dryRun then t0
  else t0 ++ [Effect.getCurrentVersionEff, Effect.changelogPersist,
    Effect.getCommitsInRelease lastRelease, Effect.beforeCommitChangelogHook,
    Effect.changelogCommit, Effect.afterAddToChangelogHook]

/-- Embedding of `publishLatest` (lines 761–808): compute the bump (an empty
sentinel ends the run), make the changelog, fire the version / afterVersion
/ publish / afterPublish points unless dry-run, delegate to `makeRelease`,
and in dry-run report the would-be incremented version. -/
def publishLatest (e : ShipEnv) :
    Option (Option String × List String) × List Effect :=
  let version := e.semverBump
  let t0 := [Effect.getLatestRelease]
  if version = "" then (none, t0 ++ [Effect.logInfo "No version published."])
  else
    let t1 := t0 ++ [Effect.getLatestRelease,
      Effect.getCommitsInRelease e.latestRelease]
    let t2 := t1 ++ makeChangelog e
    let t3 := t2 ++
      (if e.dryRun then []
       else [Effect.versionHook version, Effect.afterVersionHook,
         Effect.publishHook version, Effect.afterPublishHook])
    let mr := makeRelease e
    let t4 := t3 ++ mr.2
    let t5 := t4 ++
      (if e.dryRun then
        [Effect.logWarn "The version reported in the line above has not been incremented during dry-run"] ++
          [Effect.getCurrentVersionEff] ++
          (if e.parses e.currentVersion then
            [Effect.logWarn
              ("Published version would be: " ++
                e.semverInc e.currentVersion version)]
           else [])
       else [])
    (some (mr.1, e.commitsInRelease), t5)

/-- Embedding of `shipit` (lines 701–724): fire `beforeShipIt`, run
`publishLatest` on the base branch or `canary` elsewhere, and fire
`afterShipIt` when a publish result was produced. -/
def shipit (e : ShipEnv) (ce : CanaryEnv) (isPr : Bool)
    (branch baseBranch : String) : List Effect :=
  let isBaseBranch := !isPr && branch == baseBranch
  [Effect.beforeShipItHook] ++
    (if isBaseBranch then
      let pl := publishLatest e
      pl.2 ++ (match pl.1 with
        | some _ => [Effect.afterShipItHook]
        | none => [])
     else
      let cr := canary ce
      cr.2 ++ (match cr.1 with
        | .done _ _ => [Effect.afterShipItHook]
        | _ => []))

/-- A concrete non-dry-run release run whose computed new version equals the
latest published release. -/
def c2Env : ShipEnv :=
  ⟨false, none, none, "patch", "v1.0.0", "v1.0.0", none, ["abc"],
    fun s => strStartsWith s "v", fun a b => a == b, fun v _ => v, false⟩

/-- A concrete dry-run trunk-branch release environment. -/
def c7ShipEnv : ShipEnv :=
  ⟨true, none, none, "minor", "v1.0.0", "v1.0.0", none, ["abc"],
    fun s => strStartsWith s "v", fun a b => a == b,
    fun v b => v ++ "+" ++ b, false⟩

/-- A concrete dry-run canary environment. -/
def c7CanaryEnv : CanaryEnv :=
  ⟨true, true, some "42", some "7", none, none, none, true, none, [],
    fun _ => "minor", "abcd123", .published "x", some "v1.0.0", "c0", []⟩

/-- Milestones of a `loadConfig` run, in execution order. -/
inductive LoadEvent where
  | modifyConfigFired
  | pluginsLoaded
  | beforeRunFired
  | gitStarted
  | onCreateReleaseFired
deriving DecidableEq

/-- A Waterfall hook call: thread the value through the registered handlers
in registration order (tapable `SyncWaterfallHook.call`). -/
def callWaterfall {α : Type} (hs : List (α → α)) (a : α) : α :=
  hs.foldl (fun acc h => h acc) a

/-- Result of `loadConfig`: the config produced by the `modifyConfig`
Waterfall call, the `modifyConfig` handler registry after plugin loading,
and the ordered milestone trace. -/
structure LoadResult (α : Type) where
  config : α
  modifyConfigHandlers : List (α → α)
  events : List LoadEvent

/-- Embedding of `loadConfig` (lines 220–261), parametric in the config
type: line 222 fires the `modifyConfig` Waterfall point over the handlers
registered so far, line 232 (`loadPlugins`) then registers the handlers of
the configured plugins, and line 233 fires `beforeRun` — in that order. -/
def loadConfig {α : Type} (initialHandlers pluginHandlers : List (α → α))
    (baseConfig : α) : LoadResult α :=
  let config := callWaterfall initialHandlers baseConfig
  { config := config
    modifyConfigHandlers := initialHandlers ++ pluginHandlers
    events := [LoadEvent.modifyConfigFired, LoadEvent.pluginsLoaded,
      LoadEvent.beforeRunFired, LoadEvent.gitStarted,
      LoadEvent.onCreateReleaseFired] }

/-- A label definition, as the released plugin contributes it. -/
structure LabelDef where
  name : String
  description : String
deriving DecidableEq

/-- The slice of the auto configuration the released plugin's `modifyConfig`
handler touches: `config.labels.released`. -/
structure AutoConfigModel where
  releasedLabel : Option LabelDef
deriving DecidableEq

/-- The released plugin's `modifyConfig` handler
(`src/plugins/released/src/index.ts` lines 42–49):
`config.labels.released = config.labels.released || defaultDefinition`. -/
def releasedModifyConfig (c : AutoConfigModel) : AutoConfigModel :=
  match c.releasedLabel with
  | some _ => c
  | none => ⟨some ⟨"released", "This issue/pull request has been released."⟩⟩

/-! ## Theorems -/

example : collectIssues ["Fixes #10, #11"] = [10] := by decide

example : collectIssues ["Closes #3"] = [3] := by decide

example : collectIssues ["fixed #7 and resolves #8, #9"] = [7, 8] := by decide

example : collectIssues ["nothing here"] = [] := by decide

/-- For a canary version, `addCommentAndLabel` posts the comment and stops. -/
theorem addCommentAndLabel_canary (o : ReleasedOptions) (p : Platform)
    (v : String) (t : Nat) (iss : Bool) (h : isCanary v = true) :
    addCommentAndLabel o p v t iss =
      (p, [Effect.comment t "released" (createReleasedComment o iss v)]) := by
  simp [addCommentAndLabel, h]

/-- For a canary version, the issue loop of `addReleased` leaves the platform
state unchanged and appends exactly one comment effect per issue. -/
theorem foldl_addReleasedStep_canary (o : ReleasedOptions) (v : String)
    (h : isCanary v = true) :
    ∀ (issues : List Nat) (p : Platform) (tr : List Effect),
      issues.foldl (addReleasedStep o v) (p, tr) =
        (p, tr ++ issues.map
          (fun i => Effect.comment i "released" (createReleasedComment o true v))) := by
  intro issues
  induction issues with
  | nil => intro p tr; simp
  | cons i is ih =>
    intro p tr
    rw [List.foldl_cons, show addReleasedStep o v (p, tr) i =
      (p, tr ++ [Effect.comment i "released" (createReleasedComment o true v)]) by
        simp [addReleasedStep, addCommentAndLabel_canary o p v i true h, h]]
    rw [ih]
    simp

/-- For a canary version, `addReleased` reduces to the request comment (when
a request is known) followed by one comment per referenced issue, with the
platform state untouched. -/
theorem addReleased_canary_trace (o : ReleasedOptions) (env : ReleasedEnv)
    (p : Platform) (c : Commit) (v : String) (h : isCanary v = true) :
    addReleased o env p c v =
      (p, prStepEffects o v c.pullRequest ++
        (addReleasedIssues env c).map
          (fun i => Effect.comment i "released" (createReleasedComment o true v))) := by
  have hfold := foldl_addReleasedStep_canary o v h
  cases hc : c.pullRequest with
  | none => simp [addReleased, hc, hfold, prStepEffects]
  | some n =>
    simp [addReleased, hc, addCommentAndLabel_canary o p v n false h, hfold,
      prStepEffects]

example :
    (addReleased defaultOptions ⟨fun _ => "Fixes #2", fun _ => []⟩
        ⟨fun _ => []⟩ ⟨"s", [], some 4⟩ "v1.0.1-canary.42.0").2 =
      [Effect.comment 4 "released"
        ":rocket: PR was released in v1.0.1-canary.42.0 :rocket:",
       Effect.getPullRequest 4, Effect.getCommitsForPr 4,
       Effect.comment 2 "released"
        ":rocket: Issue was released in v1.0.1-canary.42.0 :rocket:"] := by decide

/-- Claim C8: for every release whose new version string is a canary version,
the release-announcement routine (`addReleased`) posts the release comment on
each target — the originating request and every referenced issue — but never
adds the `released` label, never locks any issue (regardless of the
`lockIssues` option), and leaves the platform label state unchanged. -/
theorem c8_canary_comments_but_no_labels_or_locks (o : ReleasedOptions)
    (env : ReleasedEnv) (p : Platform) (c : Commit) (v : String)
    (h : isCanary v = true) :
    (addReleased o env p c v).1 = p ∧
    (∀ x ∈ (addReleased o env p c v).2,
      x.isAddLabel = false ∧ x.isLockIssue = false) ∧
    (∀ n, c.pullRequest = some n →
      Effect.comment n "released" (createReleasedComment o false v) ∈
        (addReleased o env p c v).2) ∧
    (∀ i ∈ addReleasedIssues env c,
      Effect.comment i "released" (createReleasedComment o true v) ∈
        (addReleased o env p c v).2) := by
  rw [addReleased_canary_trace o env p c v h]
  refine ⟨rfl, ?_, ?_, ?_⟩
  · intro x hx
    rcases List.mem_append.1 hx with hx | hx
    · cases hc : c.pullRequest with
      | none => rw [hc] at hx; cases hx
      | some n =>
        rw [hc] at hx
        simp only [prStepEffects, List.mem_cons, List.not_mem_nil, or_false] at hx
        rcases hx with rfl | rfl | rfl <;> exact ⟨rfl, rfl⟩
    · obtain ⟨i, _, rfl⟩ := List.mem_map.1 hx
      exact ⟨rfl, rfl⟩
  · intro n hn
    rw [hn]
    exact List.mem_append.2 (Or.inl (List.mem_cons_self _ _))
  · intro i hi
    exact List.mem_append.2 (Or.inr (List.mem_map.2 ⟨i, hi, rfl⟩))

/-- Claim C8 witness: concrete canary release announcement. -/
theorem c8_canary_comments_but_no_labels_or_locks_witness :
    ((addReleased defaultOptions ⟨fun _ => "Fixes #2", fun _ => []⟩
        ⟨fun _ => []⟩ ⟨"s", [], some 4⟩ "v1.0.1-canary.42.0").1).labels 4 = [] ∧
    (∀ x ∈ (addReleased defaultOptions ⟨fun _ => "Fixes #2", fun _ => []⟩
        ⟨fun _ => []⟩ ⟨"s", [], some 4⟩ "v1.0.1-canary.42.0").2,
      x.isAddLabel = false ∧ x.isLockIssue = false) := by
  have h := c8_canary_comments_but_no_labels_or_locks defaultOptions
    ⟨fun _ => "Fixes #2", fun _ => []⟩ ⟨fun _ => []⟩ ⟨"s", [], some 4⟩
    "v1.0.1-canary.42.0" (by decide)
  exact ⟨by rw [h.1], h.2.1⟩

/-- After one `ensureLabel` call the label is present on the target. -/
theorem ensureLabelState_mem (o : ReleasedOptions) (n : Nat) (p : Platform) :
    o.label ∈ (ensureLabelState o n p).labels n := by
  unfold ensureLabelState ensureLabel
  by_cases h : o.label ∈ p.labels n
  · simp [h]
  · simp [h, addLabelToPr]

/-- Calling `ensureLabel` on a state where the label is already present is the
identity on the platform state. -/
theorem ensureLabelState_of_mem (o : ReleasedOptions) (n : Nat) (p : Platform)
    (h : o.label ∈ p.labels n) : ensureLabelState o n p = p := by
  unfold ensureLabelState ensureLabel
  simp [h]

/-- The `ensureLabel` state transformer is idempotent. -/
theorem ensureLabelState_idem (o : ReleasedOptions) (n : Nat) (p : Platform) :
    ensureLabelState o n (ensureLabelState o n p) = ensureLabelState o n p :=
  ensureLabelState_of_mem o n _ (ensureLabelState_mem o n p)

/-- One `ensureLabel` call never pushes the label's multiplicity above
`max 1` of what it was. -/
theorem ensureLabelState_count_le (o : ReleasedOptions) (n : Nat) (q : Platform) :
    ((ensureLabelState o n q).labels n).count o.label ≤
      max 1 ((q.labels n).count o.label) := by
  unfold ensureLabelState ensureLabel
  by_cases h : o.label ∈ q.labels n
  · simp [h, le_max_right]
  · have hz : (q.labels n).count o.label = 0 := List.count_eq_zero.2 h
    simp [h, addLabelToPr, List.count_append, hz]

/-- The label's multiplicity stays bounded by `max 1` of its initial value
under any number of `ensureLabel` calls. -/
theorem ensureLabelState_iterate_count_le (o : ReleasedOptions) (p : Platform)
    (n : Nat) (k : Nat) :
    (((ensureLabelState o n)^[k] p).labels n).count o.label ≤
      max 1 ((p.labels n).count o.label) := by
  induction k with
  | zero => exact le_max_right _ _
  | succ k ih =>
    rw [Function.iterate_succ_apply']
    calc (((ensureLabelState o n) ((ensureLabelState o n)^[k] p)).labels n).count
          o.label
        ≤ max 1 ((((ensureLabelState o n)^[k] p).labels n).count o.label) :=
          ensureLabelState_count_le o n _
      _ ≤ max 1 (max 1 ((p.labels n).count o.label)) := max_le_max le_rfl ih
      _ = max 1 ((p.labels n).count o.label) := by rw [← max_assoc, max_self]

/-- Claim C9: ensuring a label first reads the target's current label set and
adds the label only if absent; as a consequence, repeated calls collapse to a
single call and never produce duplicate labels regardless of call count. -/
theorem c9_ensure_label_idempotent (o : ReleasedOptions) (p : Platform) (n : Nat) :
    ((ensureLabel o p n).2.head? = some (Effect.getLabels n)) ∧
    (o.label ∈ p.labels n →
      (ensureLabel o p n).1 = p ∧ (ensureLabel o p n).2 = [Effect.getLabels n]) ∧
    (∀ k : Nat, (ensureLabelState o n)^[k + 1] p = ensureLabelState o n p) ∧
    (∀ k : Nat,
      (((ensureLabelState o n)^[k] p).labels n).count o.label ≤
        max 1 ((p.labels n).count o.label)) := by
  refine ⟨?_, ?_, ?_, fun k => ensureLabelState_iterate_count_le o p n k⟩
  · unfold ensureLabel
    by_cases h : o.label ∈ p.labels n <;> simp [h]
  · intro h
    refine ⟨ensureLabelState_of_mem o n p h, ?_⟩
    unfold ensureLabel
    simp [h]
  · intro k
    induction k with
    | zero => rfl
    | succ k ih =>
      rw [Function.iterate_succ_apply', ih, ensureLabelState_idem]

/-- Claim C9 witness: a concrete target whose label list already carries the
label once is left untouched by `ensureLabel`, and iterated calls collapse. -/
theorem c9_ensure_label_idempotent_witness :
    ("released" ∈ ["released"] →
      (ensureLabel defaultOptions ⟨fun _ => ["released"]⟩ 3).1 =
        (⟨fun _ => ["released"]⟩ : Platform) ∧
      (ensureLabel defaultOptions ⟨fun _ => ["released"]⟩ 3).2 =
        [Effect.getLabels 3]) ∧
    (ensureLabelState defaultOptions 3)^[2] ⟨fun _ => ["released"]⟩ =
      ensureLabelState defaultOptions 3 ⟨fun _ => ["released"]⟩ := by
  have h := c9_ensure_label_idempotent defaultOptions ⟨fun _ => ["released"]⟩ 3
  exact ⟨h.2.1, h.2.2.1 1⟩

/-- Claim C1 (code behaviour at the failing input): with the originating
request body `"Fixes #10, #11"`, the issue-collection pipeline of
`addReleased` yields only issue 10 — the `g`-flag `match` keeps full match
strings and the follow-up `/#(\d+)/i` extracts only the first reference —
so issue 11 receives neither the release comment nor the `released` label,
contradicting the claim that every referenced issue is treated. -/
theorem c1_only_first_issue_collected :
    addReleasedIssues c1Env c1Commit = [10] ∧
    (addReleased defaultOptions c1Env ⟨fun _ => []⟩ c1Commit "v1.1.0").2 =
      [Effect.comment 5 "released" ":rocket: PR was released in v1.1.0 :rocket:",
       Effect.getLabels 5, Effect.addLabel 5 "released",
       Effect.getPullRequest 5, Effect.getCommitsForPr 5,
       Effect.comment 10 "released"
         ":rocket: Issue was released in v1.1.0 :rocket:",
       Effect.getLabels 10, Effect.addLabel 10 "released"] := by decide

/-- Claim C4: the canary suffix is `.{pr}.{build}` when both the request
number and the build id are known, `.{thatValue}.{shortSha}` when exactly one
of the two is known, and `.{shortSha}` when neither is. -/
theorem c4_canary_suffix_cases (p b sha : String) (hp : p ≠ "") (hb : b ≠ "") :
    canaryVersion (some p) (some b) sha = "." ++ p ++ "." ++ b ∧
    canaryVersion (some p) none sha = "." ++ p ++ "." ++ sha ∧
    canaryVersion none (some b) sha = "." ++ b ++ "." ++ sha ∧
    canaryVersion none none sha = "." ++ sha := by
  refine ⟨?_, ?_, ?_, ?_⟩ <;>
    simp [canaryVersion, jsTruthy, optStr, hp, hb, String.append_assoc]

/-- Claim C4 witness: the specification's own example values. -/
theorem c4_canary_suffix_cases_witness :
    canaryVersion (some "42") (some "7") "abcd123" = ".42.7" ∧
    canaryVersion (some "42") none "abcd123" = ".42.abcd123" ∧
    canaryVersion none (some "7") "abcd123" = ".7.abcd123" ∧
    canaryVersion none none "abcd123" = ".abcd123" := by
  have h := c4_canary_suffix_cases "42" "7" "abcd123" (by decide) (by decide)
  exact ⟨h.1, h.2.1, h.2.2.1, h.2.2.2⟩

/-- Claim C5: when no handler is registered on the `canary` SeriesBail hook
point, the command refuses to proceed: it logs the fatal message instructing
the user that no plugin supports canary releases and exits, and its whole
trace contains no commit-range computation and no platform side effect. -/
theorem c5_canary_refuses_without_handler (e : CanaryEnv)
    (hi : e.initialized = true) (hu : e.canaryHookUsed = false) :
    (canary e).1 = CanaryOutcome.fatalExit ∧
    (canary e).2 = [Effect.logError canaryUnusedMessage, Effect.processExit 1] ∧
    (∀ x ∈ (canary e).2,
      x.isCommitRangeComputation = false ∧ x.isPlatformSideEffect = false) := by
  refine ⟨by simp [canary, hi, hu], by simp [canary, hi, hu], ?_⟩
  intro x hx
  simp only [canary, hi, hu, Bool.not_true, Bool.not_false, if_true, if_false,
    Bool.false_eq_true, ite_false, ite_true] at hx
  rcases List.mem_cons.1 hx with rfl | hx
  · exact ⟨rfl, rfl⟩
  · rcases List.mem_cons.1 hx with rfl | hx
    · exact ⟨rfl, rfl⟩
    · cases hx

/-- Claim C5 witness: a concrete loaded environment with no canary handler. -/
theorem c5_canary_refuses_without_handler_witness :
    (canary ⟨true, false, none, none, none, none, none, false, none, [],
        fun _ => "", "abc", .published "", none, "c0", []⟩).1 =
      CanaryOutcome.fatalExit ∧
    (∀ x ∈ (canary ⟨true, false, none, none, none, none, none, false, none, [],
        fun _ => "", "abc", .published "", none, "c0", []⟩).2,
      x.isCommitRangeComputation = false ∧ x.isPlatformSideEffect = false) := by
  have h := c5_canary_refuses_without_handler
    ⟨true, false, none, none, none, none, none, false, none, [],
      fun _ => "", "abc", .published "", none, "c0", []⟩ rfl rfl
  exact ⟨h.1, h.2.2⟩

/-- Claim C6: in a non-dry-run canary invocation whose hook result is the
structured failure value, the command logs the failure message and returns
with the `aborted` outcome — no request-body update and no success report
appear anywhere in the trace. -/
theorem c6_canary_structured_failure_aborts (e : CanaryEnv) (err : String)
    (hi : e.initialized = true) (hu : e.canaryHookUsed = true)
    (hd : e.dryRun = false) (hr : e.hookResult = .failed err) :
    (canary e).1 = CanaryOutcome.aborted ∧
    Effect.logWarn err ∈ (canary e).2 ∧
    (∀ x ∈ (canary e).2,
      x.isPrBodyUpdate = false ∧ x.isSuccessReport = false) := by
  have htr : (canary e).2 =
      ([Effect.getCommitsInRelease "HEAD^"] ++
        (if !jsTruthy (canaryPr e) || !jsTruthy (canaryBuild e)
         then [Effect.getSha] else [])) ++
      [Effect.logInfo "Calling canary hook",
       Effect.canaryHook (canaryBump e)
         (canaryVersion (canaryPr e) (canaryBuild e) e.shortSha)] ++
      [Effect.logWarn err] := by
    simp [canary, hi, hu, hd, hr]
  have hout : (canary e).1 = CanaryOutcome.aborted := by
    simp [canary, hi, hu, hd, hr]
  refine ⟨hout, ?_, ?_⟩
  · rw [htr]; simp
  · intro x hx
    rw [htr] at hx
    rcases List.mem_append.1 hx with hx | hx
    · rcases List.mem_append.1 hx with hx | hx
      · rcases List.mem_append.1 hx with hx | hx
        · rcases List.mem_cons.1 hx with rfl | hx
          · exact ⟨rfl, rfl⟩
          · cases hx
        · split at hx
          · rcases List.mem_cons.1 hx with rfl | hx
            · exact ⟨rfl, rfl⟩
            · cases hx
          · cases hx
      · rcases List.mem_cons.1 hx with rfl | hx
        · exact ⟨rfl, rfl⟩
        · rcases List.mem_cons.1 hx with rfl | hx
          · exact ⟨rfl, rfl⟩
          · cases hx
    · rcases List.mem_cons.1 hx with rfl | hx
      · exact ⟨rfl, rfl⟩
      · cases hx

/-- Claim C6 witness: the concrete failing canary run aborts cleanly. -/
theorem c6_canary_structured_failure_aborts_witness :
    (canary c6Env).1 = CanaryOutcome.aborted ∧
    Effect.logWarn "npm publish failed" ∈ (canary c6Env).2 := by
  have h := c6_canary_structured_failure_aborts c6Env "npm publish failed"
    rfl rfl rfl rfl
  exact ⟨h.1, h.2.1⟩

/-- Claim C10: when `calculateSemVerBump` yields the empty "no release
warranted" sentinel, the canary command substitutes a patch bump and
proceeds — in a non-dry-run invocation the canary hook is still fired, with
the `patch` bump, and the command never takes a "no release" early exit. -/
theorem c10_canary_substitutes_patch (e : CanaryEnv)
    (hi : e.initialized = true) (hu : e.canaryHookUsed = true)
    (hb : e.calcBump e.commitLabels = "") :
    canaryBump e = "patch" ∧
    (canary e).1 ≠ CanaryOutcome.fatalExit ∧
    (canary e).1 ≠ CanaryOutcome.notInitialized ∧
    (e.dryRun = false →
      Effect.canaryHook "patch"
          (canaryVersion (canaryPr e) (canaryBuild e) e.shortSha) ∈
        (canary e).2) := by
  have hbump : canaryBump e = "patch" := by simp [canaryBump, jsOr, hb]
  refine ⟨hbump, ?_, ?_, ?_⟩
  · simp only [canary, hi, hu, Bool.not_true, Bool.false_eq_true, if_false]
    split
    · simp
    · split <;> simp
  · simp only [canary, hi, hu, Bool.not_true, Bool.false_eq_true, if_false]
    split
    · simp
    · split <;> simp
  · intro hd
    simp only [canary, hi, hu, hd, Bool.not_true, Bool.false_eq_true, if_false,
      ite_false, hbump]
    split <;> simp

/-- Claim C10 witness: the concrete no-release range still fires the canary
hook with a patch bump. -/
theorem c10_canary_substitutes_patch_witness :
    canaryBump c10Env = "patch" ∧
    Effect.canaryHook "patch" ".42.7" ∈ (canary c10Env).2 := by
  have h := c10_canary_substitutes_patch c10Env rfl rfl rfl
  refine ⟨h.1, ?_⟩
  have hm := h.2.2.2 rfl
  simpa using hm

/-- Claim C2 counterexample: in this non-dry-run run the computed new version
equals the last published version, the release creation is skipped — and,
contrary to the claim, the `afterRelease` hook point is *not* fired: the
function returns early with no `afterRelease` (and no release creation) in
its trace. -/
theorem c2_counterexample :
    c2Env.dryRun = false ∧
    mrNewVersion c2Env = mrLastRelease c2Env ∧
    c2Env.semverEq (mrNewVersion c2Env) (mrLastRelease c2Env) = true ∧
    (makeRelease c2Env).1 = none ∧
    (makeRelease c2Env).2.all
      (fun x => !x.isAfterRelease && !x.isGitPublish) = true := by decide

/-- Claim C2, amended: in every non-dry-run release run whose computed new
version parses and equals the (parsed) last known published version, the run
warns that nothing is released and returns early — the platform release
object is not created and the `afterRelease` hook point is not fired. -/
theorem c2_equal_version_skips_release_and_after_hook (e : ShipEnv)
    (hd : e.dryRun = false) (hraw : mrRawVersion e ≠ "")
    (h1 : e.parses (mrNewVersion e) = true)
    (h2 : e.parses (mrLastRelease e) = true)
    (h3 : e.semverEq (mrNewVersion e) (mrLastRelease e) = true) :
    (makeRelease e).1 = none ∧
    Effect.logWarn (nothingReleasedMsg (mrNewVersion e)) ∈ (makeRelease e).2 ∧
    (∀ x ∈ (makeRelease e).2,
      x.isGitPublish = false ∧ x.isAfterRelease = false) := by
  have hcond : (!e.dryRun && e.parses (mrNewVersion e) &&
      e.parses (mrLastRelease e) &&
      e.semverEq (mrNewVersion e) (mrLastRelease e)) = true := by
    rw [hd, h1, h2, h3]; rfl
  have htr : makeRelease e =
      (none,
        ((if jsTruthy e.fromOpt then [] else [Effect.getLatestRelease]) ++
          [Effect.logInfo ("Last used release: " ++ mrLastRelease e),
           Effect.getCommitsInRelease (mrLastRelease e),
           Effect.generateReleaseNotes] ++ mrRawVersionEffects e) ++
        [Effect.logWarn (nothingReleasedMsg (mrNewVersion e))]) := by
    unfold makeRelease
    rw [if_neg hraw, if_pos hcond]
  rw [htr]
  refine ⟨rfl, by simp, ?_⟩
  intro x hx
  rcases List.mem_append.1 hx with hx | hx
  · rcases List.mem_append.1 hx with hx | hx
    · rcases List.mem_append.1 hx with hx | hx
      · split at hx
        · cases hx
        · rcases List.mem_cons.1 hx with rfl | hx
          · exact ⟨rfl, rfl⟩
          · cases hx
      · rcases List.mem_cons.1 hx with rfl | hx
        · exact ⟨rfl, rfl⟩
        · rcases List.mem_cons.1 hx with rfl | hx
          · exact ⟨rfl, rfl⟩
          · rcases List.mem_cons.1 hx with rfl | hx
            · exact ⟨rfl, rfl⟩
            · cases hx
    · unfold mrRawVersionEffects at hx
      split at hx
      · cases hx
      · rcases List.mem_cons.1 hx with rfl | hx
        · exact ⟨rfl, rfl⟩
        · split at hx
          · rcases List.mem_cons.1 hx with rfl | hx
            · exact ⟨rfl, rfl⟩
            · cases hx
          · cases hx
  · rcases List.mem_cons.1 hx with rfl | hx
    · exact ⟨rfl, rfl⟩
    · cases hx

/-- Claim C2 witness (of the amended statement) at the concrete run. -/
theorem c2_equal_version_skips_release_and_after_hook_witness :
    (makeRelease c2Env).1 = none ∧
    Effect.logWarn (nothingReleasedMsg (mrNewVersion c2Env)) ∈
      (makeRelease c2Env).2 :=
  ⟨(c2_equal_version_skips_release_and_after_hook c2Env rfl (by decide)
      (by decide) (by decide) (by decide)).1,
   (c2_equal_version_skips_release_and_after_hook c2Env rfl (by decide)
      (by decide) (by decide) (by decide)).2.1⟩

/-- Dry-run `makeChangelog` performs none of the suppressed mutations. -/
theorem makeChangelog_dry_all (e : ShipEnv) (hd : e.dryRun = true) :
    (makeChangelog e).all (fun x => !x.isDryRunSuppressed) = true := by
  simp only [makeChangelog, hd]
  split_ifs <;> rfl

/-- Dry-run `makeRelease` performs none of the suppressed mutations. -/
theorem makeRelease_dry_all (e : ShipEnv) (hd : e.dryRun = true) :
    (makeRelease e).2.all (fun x => !x.isDryRunSuppressed) = true := by
  simp only [makeRelease, mrRawVersionEffects, hd]
  split_ifs <;> rfl

/-- Dry-run `publishLatest` performs none of the suppressed mutations. -/
theorem publishLatest_dry_all (e : ShipEnv) (hd : e.dryRun = true) :
    (publishLatest e).2.all (fun x => !x.isDryRunSuppressed) = true := by
  have hc := makeChangelog_dry_all e hd
  have hr := makeRelease_dry_all e hd
  simp only [publishLatest, hd]
  split_ifs <;>
    first
      | rfl
      | simp_all [List.all_cons, List.all_append, Effect.isDryRunSuppressed]

/-- The latest-tag lookup tail of `canary` performs only reads. -/
theorem canaryTagEffects_all (ce : CanaryEnv) :
    (canaryTagEffects ce).all (fun x => !x.isDryRunSuppressed) = true := by
  unfold canaryTagEffects
  cases ce.latestTagRes <;> simp [Effect.isDryRunSuppressed]

/-- Dry-run `canary` performs none of the suppressed mutations — in
particular the canary hook is not called. -/
theorem canary_dry_all (ce : CanaryEnv) (hcd : ce.dryRun = true) :
    (canary ce).2.all (fun x => !x.isDryRunSuppressed) = true := by
  have ht := canaryTagEffects_all ce
  simp only [canary, hcd]
  split_ifs <;>
    first
      | rfl
      | simp_all [List.all_cons, List.all_append, Effect.isDryRunSuppressed]

/-- Claim C7: a run invoked in dry-run mode fires none of the
version/afterVersion/publish/afterPublish hook points, persists and commits
no changelog, creates no hosting-platform release object and never calls the
canary hook — on either branch `shipit` can take — while on the trunk branch
it still reports the would-be incremented version number. -/
theorem c7_dry_run_suppresses_mutations (e : ShipEnv) (ce : CanaryEnv)
    (isPr : Bool) (branch baseBranch : String)
    (hd : e.dryRun = true) (hcd : ce.dryRun = true) :
    (∀ x ∈ shipit e ce isPr branch baseBranch, x.isDryRunSuppressed = false) ∧
    (isPr = false → branch = baseBranch → e.semverBump ≠ "" →
      e.parses e.currentVersion = true →
      Effect.logWarn ("Published version would be: " ++
          e.semverInc e.currentVersion e.semverBump) ∈
        shipit e ce isPr branch baseBranch) := by
  constructor
  · intro x hx
    unfold shipit at hx
    rcases List.mem_append.1 hx with hx | hx
    · rcases List.mem_cons.1 hx with rfl | hx
      · rfl
      · cases hx
    · split at hx
      · rcases List.mem_append.1 hx with hx | hx
        · have hall := publishLatest_dry_all e hd
          have := List.all_eq_true.1 hall x hx
          simpa using this
        · split at hx
          · rcases List.mem_cons.1 hx with rfl | hx
            · rfl
            · cases hx
          · cases hx
      · rcases List.mem_append.1 hx with hx | hx
        · have hall := canary_dry_all ce hcd
          have := List.all_eq_true.1 hall x hx
          simpa using this
        · split at hx
          · rcases List.mem_cons.1 hx with rfl | hx
            · rfl
            · cases hx
          · cases hx
  · intro hpr hbr hb hp
    subst hpr hbr
    simp only [shipit]
    rw [if_pos (show (!false && branch == branch) = true by simp)]
    refine List.mem_append.2 (Or.inr (List.mem_append.2 (Or.inl ?_)))
    simp only [publishLatest]
    rw [if_neg hb, hd]
    simp [hp]

/-- Claim C7 witness: the concrete dry-run `shipit` performs no suppressed
mutation and still reports the would-be version. -/
theorem c7_dry_run_suppresses_mutations_witness :
    (∀ x ∈ shipit c7ShipEnv c7CanaryEnv false "master" "master",
      x.isDryRunSuppressed = false) ∧
    Effect.logWarn ("Published version would be: " ++
        c7ShipEnv.semverInc c7ShipEnv.currentVersion c7ShipEnv.semverBump) ∈
      shipit c7ShipEnv c7CanaryEnv false "master" "master" := by
  have h := c7_dry_run_suppresses_mutations c7ShipEnv c7CanaryEnv false
    "master" "master" rfl rfl
  exact ⟨h.1, h.2 rfl rfl (by decide) (by decide)⟩

/-- Claim C3 (code behaviour at the failing input): `loadConfig` fires the
`modifyConfig` Waterfall point *before* `loadPlugins` registers the
configured plugins' handlers, so the released plugin's handler — which would
have installed the default `released` label definition — is never invoked:
the resulting config carries no `released` label, and more generally the
config `loadConfig` produces is independent of the plugin-registered
handlers, contradicting the claim that those handlers run during the
`Idle → ConfigReady` transition before `beforeRun` fires. -/
theorem c3_modify_config_fires_before_plugins_load :
    (loadConfig ([] : List (AutoConfigModel → AutoConfigModel))
        [releasedModifyConfig] ⟨none⟩).config.releasedLabel = none ∧
    (releasedModifyConfig (⟨none⟩ : AutoConfigModel)).releasedLabel =
      some ⟨"released", "This issue/pull request has been released."⟩ ∧
    (∀ hs : List (AutoConfigModel → AutoConfigModel),
      (loadConfig [] hs (⟨none⟩ : AutoConfigModel)).config = ⟨none⟩) :=
  ⟨rfl, rfl, fun _ => rfl⟩

end Auto2
